import Mathlib

/-!
Shallow embedding of `src/index.js` of load-common-gulp-tasks.

The module keeps four process-wide mutable variables
(`exitCode`, `totalLintErrors`, `totalFelintErrors`, `lessError`),
resets them in `beforeEach`, and wires gulp tasks whose stream handlers
mutate them.  We model the mutable record as `RunState`, each handler as a
state transformer, and each task body as a function from the incoming state
and the external tool's outcomes to a final state plus the list of
observable events (log messages, beeps, `process.emit` of the exit event).
-/

/-- The four module-level mutable variables of `module.exports` (lines 26-29). -/
structure RunState where
  exitCode : Nat
  totalLintErrors : Nat
  totalFelintErrors : Nat
  lessError : Nat
deriving DecidableEq, Repr

/-- The state in which every counter and the failure flag are zero. -/
def zeroState : RunState := ⟨0, 0, 0, 0⟩

/-- `beforeEach` (lines 102-107): sets all four variables to 0. -/
def beforeEach (_ : RunState) : RunState := zeroState

/-- The `file.jshint` record a lint pipeline attaches to one file:
`success` and the length of `results`. -/
structure JshintFile where
  success : Bool
  resultsLength : Nat
deriving DecidableEq, Repr

/-- Log messages the module prints (payloads abstracted). -/
inductive Msg where
  /-- the red `gulp <seq> failed` line of the exit handler (line 89) -/
  | failed (task : String)
  /-- the green `gulp <task> passed` line of `taskPassed` (lines 95-99) -/
  | passed (task : String)
  /-- `lintOnEnd`: the magenta error-count line (line 162) -/
  | lintErrors (n : Nat)
  /-- `felintOnEnd`: the magenta error-count line (line 211) -/
  | felintErrors (n : Nat)
  /-- `lessOnEnd`: the red `Less errors found` line (lines 125-126) -/
  | lessErrorsFound
  /-- `gutil.log(err)` / `gutil.log(err.message)` of a tool error -/
  | toolError
deriving DecidableEq, Repr

/-- Observable events a task run produces. -/
inductive Ev where
  | log (m : Msg)
  | beep
  /-- `process.emit` of the exit event -/
  | emitExit
deriving DecidableEq, Repr

/-- The per-file callback in `lint` (lines 150-156): on a failed file add
`file.jshint.results.length` to `totalLintErrors` and set `exitCode = 1`. -/
def lintStep (s : RunState) (f : JshintFile) : RunState :=
  if f.success then s
  else { s with totalLintErrors := s.totalLintErrors + f.resultsLength, exitCode := 1 }

/-- `lint()` (lines 145-157): `beforeEach`, then processes each file in order. -/
def lint (s : RunState) (files : List JshintFile) : RunState :=
  files.foldl lintStep (beforeEach s)

/-- The per-file callback in `felint` (lines 199-205). -/
def felintStep (s : RunState) (f : JshintFile) : RunState :=
  if f.success then s
  else { s with totalFelintErrors := s.totalFelintErrors + f.resultsLength, exitCode := 1 }

/-- `felint()` (lines 194-206): `beforeEach`, then processes each file in order. -/
def felint (s : RunState) (files : List JshintFile) : RunState :=
  files.foldl felintStep (beforeEach s)

/-- The error handler inside `lessTest` (lines 117-120): sets `lessError = 1`
and logs the error.  It does NOT touch `exitCode`. -/
def lessErrorHandler (s : RunState) : RunState := { s with lessError := 1 }

/-- `lessTest()` (lines 113-121): `beforeEach`, then the less pipeline, whose
error event (if the compiler fails) runs `lessErrorHandler`. -/
def lessTest (s : RunState) (lessFails : Bool) : RunState :=
  let s0 := beforeEach s
  if lessFails then lessErrorHandler s0 else s0

/-- `testErrorHandler` (lines 243-247): beep, log the message, `exitCode = 1`. -/
def testErrorHandler (s : RunState) : RunState := { s with exitCode := 1 }

/-- The events `testErrorHandler` emits (beep then log). -/
def testErrorHandlerEvents : List Ev := [Ev.beep, Ev.log Msg.toolError]

/-- `lessOnEnd` (lines 123-131) as the events it prints. -/
def lessOnEndEvents (s : RunState) : List Ev :=
  if s.lessError ≠ 0 then [Ev.log Msg.lessErrorsFound, Ev.beep]
  else [Ev.log (Msg.passed "lessTest")]

/-- `lintOnEnd` (lines 159-167) as the events it prints. -/
def lintOnEndEvents (s : RunState) : List Ev :=
  if s.exitCode ≠ 0 then [Ev.log (Msg.lintErrors s.totalLintErrors), Ev.beep]
  else [Ev.log (Msg.passed "lint")]

/-- `felintOnEnd` (lines 208-216) as the events it prints. -/
def felintOnEndEvents (s : RunState) : List Ev :=
  if s.exitCode ≠ 0 then [Ev.log (Msg.felintErrors s.totalFelintErrors), Ev.beep]
  else [Ev.log (Msg.passed "felint")]

/-- The state in which each task's pipeline begins producing results:
the `lessTest` task body calls `beforeEach` first (line 114). -/
def lessTestStart (s : RunState) : RunState := beforeEach s

/-- The `lint` / `lint-watch` pipeline starts after `beforeEach` (line 146). -/
def lintStart (s : RunState) : RunState := beforeEach s

/-- The `felint` / `felint-watch` pipeline starts after `beforeEach` (line 195). -/
def felintStart (s : RunState) : RunState := beforeEach s

/-- `cover` (lines 249-257) — used by `test-cover` and `test-cover-watch` —
calls `beforeEach` first (line 250). -/
def coverStart (s : RunState) : RunState := beforeEach s

/-- The `test` task (lines 295-305) starts its pipeline directly from
`gulp.src` with no call to `beforeEach`: the incoming state is untouched. -/
def testStart (s : RunState) : RunState := s

/-- The `test-watch` task (lines 307-317) likewise performs no reset. -/
def testWatchStart (s : RunState) : RunState := s

/-- The `lint` task body (lines 169-180): run the pipeline, print
`lintOnEnd`, and when `exitCode` is set, `process.emit` the exit event. -/
def lintTask (s : RunState) (files : List JshintFile) : RunState × List Ev :=
  let s1 := lint s files
  (s1, lintOnEndEvents s1 ++ (if s1.exitCode ≠ 0 then [Ev.emitExit] else []))

/-- The `lint-watch` task body (lines 182-188): pipeline plus `lintOnEnd`
only — no exit event is ever emitted. -/
def lintWatchTask (s : RunState) (files : List JshintFile) : RunState × List Ev :=
  let s1 := lint s files
  (s1, lintOnEndEvents s1)

/-- The `felint` task body (lines 218-229). -/
def felintTask (s : RunState) (files : List JshintFile) : RunState × List Ev :=
  let s1 := felint s files
  (s1, felintOnEndEvents s1 ++ (if s1.exitCode ≠ 0 then [Ev.emitExit] else []))

/-- The `felint-watch` task body (lines 231-237). -/
def felintWatchTask (s : RunState) (files : List JshintFile) : RunState × List Ev :=
  let s1 := felint s files
  (s1, felintOnEndEvents s1)

/-- The `lessTest` task body (lines 133-139): pipeline plus `lessOnEnd`.
It never emits the exit event and never touches `exitCode`. -/
def lessTestTask (s : RunState) (lessFails : Bool) : RunState × List Ev :=
  let s1 := lessTest s lessFails
  (s1, lessOnEndEvents s1)

/-- The `test-cover` task body (lines 259-278): `cover` (with `beforeEach`),
then mocha; a mocha error runs `testErrorHandler` and emits exit; otherwise
the coverage enforcer may error, likewise handled. -/
def testCoverTask (s : RunState) (mochaErr coverErr : Bool) : RunState × List Ev :=
  let s0 := coverStart s
  if mochaErr then (testErrorHandler s0, testErrorHandlerEvents ++ [Ev.emitExit])
  else if coverErr then (testErrorHandler s0, testErrorHandlerEvents ++ [Ev.emitExit])
  else (s0, [])

/-- The `test-cover-watch` task body (lines 280-293): same pipeline but both
error handlers are plain `testErrorHandler` — no exit event. -/
def testCoverWatchTask (s : RunState) (mochaErr coverErr : Bool) : RunState × List Ev :=
  let s0 := coverStart s
  if mochaErr then (testErrorHandler s0, testErrorHandlerEvents)
  else if coverErr then (testErrorHandler s0, testErrorHandlerEvents)
  else (s0, [])

/-- The `test` task body (lines 295-305): no `beforeEach`; a mocha error runs
`testErrorHandler` and emits exit. -/
def testTask (s : RunState) (mochaErr : Bool) : RunState × List Ev :=
  if mochaErr then (testErrorHandler s, testErrorHandlerEvents ++ [Ev.emitExit])
  else (s, [])

/-- The `test-watch` task body (lines 307-317): no `beforeEach`; a mocha
error runs `testErrorHandler` only. -/
def testWatchTask (s : RunState) (mochaErr : Bool) : RunState × List Ev :=
  if mochaErr then (testErrorHandler s, testErrorHandlerEvents)
  else (s, [])

/-- The exit handler registered at lines 87-93: at the exit event it defers a
tick that logs the red `gulp <seq> failed` line and calls `process.exit`
with the current value of `exitCode`.  Returned: the tick's log events and
the status it exits with. -/
def exitHandlerTick (seq : String) (s : RunState) : List Ev × Nat :=
  ([Ev.log (Msg.failed seq)], s.exitCode)

/-- One task execution as a state transformer with events. -/
def Burst : Type := RunState → RunState × List Ev

/-- Sequential scheduling of a dependency list: run each task burst; when a
burst emitted the exit event, the deferred tick runs at the end of that
synchronous burst (before any further task) and `process.exit` terminates
the process, so the remaining bursts never run.  Result: final state, the
full event trace, and `some status` when a deferred exit was performed. -/
def runBursts (seq : String) (s : RunState) : List Burst → RunState × List Ev × Option Nat
  | [] => (s, [], none)
  | b :: bs =>
    let r := b s
    if Ev.emitExit ∈ r.2 then
      let t := exitHandlerTick seq r.1
      (r.1, r.2 ++ t.1, some t.2)
    else
      let rest := runBursts seq r.1 bs
      (rest.1, r.2 ++ rest.2.1, rest.2.2)

/-- The process exit status of a whole run: the status of the deferred exit
when one was performed; otherwise, at natural process end, the exit handler
fires once more and exits with the final `exitCode`. -/
def processExitStatus (seq : String) (s : RunState) (bs : List Burst) : Nat :=
  match runBursts seq s bs with
  | (sf, _, none) => (exitHandlerTick seq sf).2
  | (_, _, some code) => code

/-- The dependency list of the `ci` task (line 355). -/
def ciDeps : List String := ["lessTest", "lint", "felint", "test-cover"]

/-- The four dependency bursts of a `ci` run, scheduled in list order. -/
def ciBursts (lessFails : Bool) (lintFiles felintFiles : List JshintFile)
    (mochaErr coverErr : Bool) : List Burst :=
  [fun s => lessTestTask s lessFails,
   fun s => lintTask s lintFiles,
   fun s => felintTask s felintFiles,
   fun s => testCoverTask s mochaErr coverErr]

/-!
Configuration model for the defaults (lines 32-77) and the merge at lines
79-81: lodash deep merge with the customizer
`function (a, b) { return isArray(a) ? b : undefined; }` — when the
destination value is an array, the source value replaces it wholesale;
otherwise (customizer returns undefined) the default deep merge applies:
two objects merge key by key recursively, anything else is overwritten by
the source value.
-/

/-- JSON-like configuration values. -/
inductive JVal where
  | bool (b : Bool)
  | num (n : Int)
  | str (s : String)
  | arr (elems : List JVal)
  | obj (fields : List (String × JVal))

/-- First binding of a key in a field list. -/
def lookupField (k : String) : List (String × JVal) → Option JVal
  | [] => none
  | (k2, v) :: rest => if k2 = k then some v else lookupField k rest

/-- Source fields whose key is absent from the destination, appended after. -/
def newFields (fa fb : List (String × JVal)) : List (String × JVal) :=
  fb.filter (fun q => (lookupField q.1 fa).isNone)

mutual

/-- Lodash `merge` of a source value `b` into a destination value `a`,
with the customizer of lines 79-81 applied at every level. -/
def mergeVal : JVal → JVal → JVal
  | JVal.arr _, b => b
  | JVal.obj fa, JVal.obj fb => JVal.obj (mergeInto fa fb ++ newFields fa fb)
  | _, b => b

/-- Merge the source fields into the existing destination fields, in place. -/
def mergeInto : List (String × JVal) → List (String × JVal) → List (String × JVal)
  | [], _ => []
  | (k, v) :: rest, fb =>
    (match lookupField k fb with
     | some w => (k, mergeVal v w)
     | none => (k, v)) :: mergeInto rest fb

end

/-- The merged field list of two objects. -/
def mergeFields (fa fb : List (String × JVal)) : List (String × JVal) :=
  mergeInto fa fb ++ newFields fa fb

/-- The field list of the default `paths` object (lines 43-64). -/
def defaultPathsFields : List (String × JVal) :=
  [("lint", JVal.arr
      [JVal.str "lib/**/*.js", JVal.str "test/**/*.js",
       JVal.str "!node_modules/**", JVal.str "!target/**"]),
   ("felint", JVal.arr [JVal.str "content/**/*.js"]),
   ("cover", JVal.arr [JVal.str "lib/**/*.js"]),
   ("test", JVal.arr [JVal.str "test/**/*.js"]),
   ("styles", JVal.obj
      [("less", JVal.arr [JVal.str "content/styles/less/*.less"])])]

/-- `gulp.options` defaults (lines 32-77); the two `path.join` results are
modelled as opaque strings. -/
def defaultOptions : JVal :=
  JVal.obj
    [("coverageSettings", JVal.obj
        [("thresholds", JVal.obj
            [("statements", JVal.num 80),
             ("branches", JVal.num 70),
             ("lines", JVal.num 80),
             ("functions", JVal.num 80)]),
         ("coverageDirectory", JVal.str "./target/coverage"),
         ("rootDirectory", JVal.str "")]),
     ("paths", JVal.obj defaultPathsFields),
     ("jshintrc", JVal.obj
        [("server", JVal.str "<dirname>/lint/.jshintrc"),
         ("client", JVal.str "<dirname>/felint/.jshintrc")]),
     ("showStreamSize", JVal.bool false),
     ("complexity", JVal.obj
        [("destDir", JVal.str "./target/complexity"),
         ("options", JVal.obj [])]),
     ("lessOpts", JVal.obj [("paths", JVal.arr [])])]

/-!  Helper lemmas about the lint folds, the end-handlers and the merge. -/

/-- Spec-side expression of the expected count: the sum of
`file.jshint.results.length` over the failing files. -/
def specJshintErrorSum (files : List JshintFile) : Nat :=
  ((files.filter (fun f => f.success = false)).map (fun f => f.resultsLength)).sum

theorem foldl_lintStep_exitCode (files : List JshintFile) (s : RunState) :
    (files.foldl lintStep s).exitCode
      = if files.any (fun f => !f.success) then 1 else s.exitCode := by
  induction files generalizing s with
  | nil => simp
  | cons f fs ih =>
    simp only [List.foldl_cons, List.any_cons]
    rw [ih]
    by_cases hf : f.success <;> simp [lintStep, hf]

theorem foldl_felintStep_exitCode (files : List JshintFile) (s : RunState) :
    (files.foldl felintStep s).exitCode
      = if files.any (fun f => !f.success) then 1 else s.exitCode := by
  induction files generalizing s with
  | nil => simp
  | cons f fs ih =>
    simp only [List.foldl_cons, List.any_cons]
    rw [ih]
    by_cases hf : f.success <;> simp [felintStep, hf]

theorem foldl_lintStep_total (files : List JshintFile) (s : RunState) :
    (files.foldl lintStep s).totalLintErrors
      = s.totalLintErrors + specJshintErrorSum files := by
  induction files generalizing s with
  | nil => simp [specJshintErrorSum]
  | cons f fs ih =>
    simp only [List.foldl_cons]
    rw [ih]
    by_cases hf : f.success <;>
      simp [lintStep, hf, specJshintErrorSum, List.filter_cons]
    omega

theorem foldl_felintStep_total (files : List JshintFile) (s : RunState) :
    (files.foldl felintStep s).totalFelintErrors
      = s.totalFelintErrors + specJshintErrorSum files := by
  induction files generalizing s with
  | nil => simp [specJshintErrorSum]
  | cons f fs ih =>
    simp only [List.foldl_cons]
    rw [ih]
    by_cases hf : f.success <;>
      simp [felintStep, hf, specJshintErrorSum, List.filter_cons]
    omega

theorem lint_exitCode (s : RunState) (files : List JshintFile) :
    (lint s files).exitCode = if files.any (fun f => !f.success) then 1 else 0 := by
  simp [lint, foldl_lintStep_exitCode, beforeEach, zeroState]

theorem felint_exitCode (s : RunState) (files : List JshintFile) :
    (felint s files).exitCode = if files.any (fun f => !f.success) then 1 else 0 := by
  simp [felint, foldl_felintStep_exitCode, beforeEach, zeroState]

theorem emitExit_not_mem_lessOnEndEvents (s : RunState) :
    Ev.emitExit ∉ lessOnEndEvents s := by
  unfold lessOnEndEvents; split <;> simp

theorem emitExit_not_mem_lintOnEndEvents (s : RunState) :
    Ev.emitExit ∉ lintOnEndEvents s := by
  unfold lintOnEndEvents; split <;> simp

theorem emitExit_not_mem_felintOnEndEvents (s : RunState) :
    Ev.emitExit ∉ felintOnEndEvents s := by
  unfold felintOnEndEvents; split <;> simp

/-- A whole process run: the bursts' trace, then — when no deferred exit was
performed — the natural process end fires the exit handler once more
(lines 87-93), appending its log and exiting with the final `exitCode`.
Result: the full event trace and the process exit status. -/
def processRun (seq : String) (s : RunState) (bs : List Burst) : List Ev × Nat :=
  match runBursts seq s bs with
  | (sf, evs, none) => (evs ++ (exitHandlerTick seq sf).1, (exitHandlerTick seq sf).2)
  | (_, evs, some code) => (evs, code)

theorem lookupField_append (k : String) (l1 l2 : List (String × JVal)) :
    lookupField k (l1 ++ l2)
      = match lookupField k l1 with
        | some v => some v
        | none => lookupField k l2 := by
  induction l1 with
  | nil => simp [lookupField]
  | cons p rest ih =>
    obtain ⟨k2, v⟩ := p
    by_cases hk : k2 = k <;> simp [lookupField, hk, ih]

theorem lookupField_mergeInto (fa fb : List (String × JVal)) (k : String)
    (d : JVal) (hd : lookupField k fa = some d) :
    lookupField k (mergeInto fa fb)
      = some (match lookupField k fb with
              | some w => mergeVal d w
              | none => d) := by
  induction fa with
  | nil => simp [lookupField] at hd
  | cons p rest ih =>
    obtain ⟨k2, v⟩ := p
    by_cases hk : k2 = k
    · subst hk
      simp [lookupField] at hd
      subst hd
      cases hfb : lookupField k2 fb <;>
        simp [mergeInto, lookupField, hfb]
    · simp only [lookupField, if_neg hk] at hd
      cases hfb : lookupField k2 fb <;>
        simp [mergeInto, lookupField, hfb, hk, ih hd]

theorem lookupField_mergeFields (fa fb : List (String × JVal)) (k : String)
    (d u : JVal) (hd : lookupField k fa = some d) (hu : lookupField k fb = some u) :
    lookupField k (mergeFields fa fb) = some (mergeVal d u) := by
  unfold mergeFields
  rw [lookupField_append, lookupField_mergeInto fa fb k d hd, hu]

theorem lessTestTask_fst (s : RunState) (b : Bool) :
    (lessTestTask s b).1 = lessTest s b := rfl

theorem lintTask_fst (s : RunState) (files : List JshintFile) :
    (lintTask s files).1 = lint s files := rfl

theorem felintTask_fst (s : RunState) (files : List JshintFile) :
    (felintTask s files).1 = felint s files := rfl

theorem emitExit_not_mem_lessTestTask (s : RunState) (b : Bool) :
    Ev.emitExit ∉ (lessTestTask s b).2 :=
  emitExit_not_mem_lessOnEndEvents (lessTest s b)

theorem emitExit_mem_lintTask (s : RunState) (files : List JshintFile) :
    Ev.emitExit ∈ (lintTask s files).2 ↔ files.any (fun f => !f.success) = true := by
  have hne := emitExit_not_mem_lintOnEndEvents (lint s files)
  by_cases h : files.any (fun f => !f.success) = true <;>
    simp [lintTask, hne, lint_exitCode, h]

theorem emitExit_mem_felintTask (s : RunState) (files : List JshintFile) :
    Ev.emitExit ∈ (felintTask s files).2 ↔ files.any (fun f => !f.success) = true := by
  have hne := emitExit_not_mem_felintOnEndEvents (felint s files)
  by_cases h : files.any (fun f => !f.success) = true <;>
    simp [felintTask, hne, felint_exitCode, h]

theorem emitExit_mem_testCoverTask (s : RunState) (mErr cErr : Bool) :
    Ev.emitExit ∈ (testCoverTask s mErr cErr).2 ↔ (mErr || cErr) = true := by
  cases mErr <;> cases cErr <;> simp [testCoverTask, testErrorHandlerEvents]

/-- Full characterization of the process exit status of a sequentially
scheduled `ci` run: it is decided by the lint, felint and mocha/enforcer
outcomes alone — the less outcome never enters. -/
theorem ciStatus (s : RunState) (lessFails : Bool)
    (lintFiles felintFiles : List JshintFile) (mochaErr coverErr : Bool) :
    processExitStatus "ci" s (ciBursts lessFails lintFiles felintFiles mochaErr coverErr)
      = if lintFiles.any (fun f => !f.success) || felintFiles.any (fun f => !f.success)
           || mochaErr || coverErr then 1 else 0 := by
  have h0 := emitExit_not_mem_lessTestTask s lessFails
  by_cases hL : lintFiles.any (fun f => !f.success) = true
  · simp [processExitStatus, ciBursts, runBursts, h0, emitExit_mem_lintTask, hL,
      exitHandlerTick, lintTask_fst, lint_exitCode]
  · by_cases hF : felintFiles.any (fun f => !f.success) = true
    · simp [processExitStatus, ciBursts, runBursts, h0, emitExit_mem_lintTask,
        emitExit_mem_felintTask, hL, hF, exitHandlerTick, felintTask_fst, felint_exitCode]
    · cases mochaErr <;> cases coverErr <;>
        simp [processExitStatus, ciBursts, runBursts, h0, emitExit_mem_lintTask,
          emitExit_mem_felintTask, emitExit_mem_testCoverTask, hL, hF,
          exitHandlerTick, testCoverTask, felintTask_fst, felint_exitCode,
          coverStart, beforeEach, zeroState, testErrorHandler]

/-!  Claims. -/

/-- C1 counterexample: the style-compilation error event does NOT set the
global run-failed flag — after the less error handler runs on a fresh
state, `exitCode` is still 0 (only `lessError` was set to 1), and a whole
failing `lessTest` run ends with `exitCode = 0`. -/
theorem c1_less_error_leaves_exitCode_zero_cx :
    (lessErrorHandler zeroState).exitCode = 0
    ∧ (lessErrorHandler zeroState).lessError = 1
    ∧ (lessTest zeroState true).exitCode = 0 :=
  ⟨rfl, rfl, rfl⟩

/-- C1 (amended): a test-runner error or a coverage-enforcer error sets the
global run-failed flag `exitCode` to 1 at the moment it is reported (via
`testErrorHandler`); a style-compilation error instead sets only the style
flag `lessError` to 1 and leaves `exitCode` unchanged, so a less failure
never sets the run-failed flag. -/
theorem c1_pipeline_failure_flags (s : RunState) :
    (testErrorHandler s).exitCode = 1
    ∧ (lessErrorHandler s).exitCode = s.exitCode
    ∧ (lessErrorHandler s).lessError = 1
    ∧ (lessTest s true).exitCode = 0 :=
  ⟨rfl, rfl, rfl, rfl⟩

/-- C2 counterexample: in a sequentially scheduled `ci` run in which the
less compilation fails and every other dependency succeeds, the less
failure is recorded (`lessError = 1` during the `lessTest` burst) and yet
the process exit status is 0 — contradicting "if any one of them fails,
the overall verdict of the ci run is fail". -/
theorem c2_ci_less_failure_zero_status_cx :
    (lessTestTask zeroState true).1.lessError = 1
    ∧ processExitStatus "ci" zeroState (ciBursts true [] [] false false) = 0 :=
  ⟨rfl, rfl⟩

/-- C2 (amended): the `ci` task depends on exactly lessTest, lint, felint
and test-cover, and under sequential scheduling of those dependencies the
run's process exit status is non-zero iff the lint, felint or test-cover
category fails; a lessTest failure never affects the exit status, so a
zero status does not imply that all four dependencies succeeded. -/
theorem c2_ci_verdict (lessFails : Bool) (lintFiles felintFiles : List JshintFile)
    (mochaErr coverErr : Bool) :
    ciDeps = ["lessTest", "lint", "felint", "test-cover"]
    ∧ processExitStatus "ci" zeroState
        (ciBursts lessFails lintFiles felintFiles mochaErr coverErr)
        = if lintFiles.any (fun f => !f.success) || felintFiles.any (fun f => !f.success)
             || mochaErr || coverErr then 1 else 0 :=
  ⟨rfl, ciStatus zeroState lessFails lintFiles felintFiles mochaErr coverErr⟩

/-- C3 counterexample: the `test` task performs no reset — invoked on a
state carrying a previous run's errors (`exitCode = 1`,
`totalLintErrors = 4`), its pipeline begins with those values intact, not
zeroed. -/
theorem c3_test_task_no_reset_cx :
    (testStart ⟨1, 4, 0, 0⟩).totalLintErrors = 4
    ∧ (testStart ⟨1, 4, 0, 0⟩).exitCode = 1
    ∧ (testTask ⟨1, 4, 0, 0⟩ false).1 = ⟨1, 4, 0, 0⟩ :=
  ⟨rfl, rfl, rfl⟩

/-- C3 (amended): the tasks built on `lessTest`, `lint`, `felint` and
`cover` (so also their watch variants and `test-cover`) reset the per-run
state before their pipeline begins, and immediately after the reset all
error counters and the failure flag are zero; the `test` and `test-watch`
tasks perform no reset and start from whatever state the process already
holds. -/
theorem c3_reset_before_pipelines (s : RunState) :
    beforeEach s = zeroState
    ∧ lessTestStart s = zeroState
    ∧ lintStart s = zeroState
    ∧ felintStart s = zeroState
    ∧ coverStart s = zeroState
    ∧ testStart s = s
    ∧ testWatchStart s = s :=
  ⟨rfl, rfl, rfl, rfl, rfl, rfl, rfl⟩

/-- C4: within one lint (resp. felint) run, the final category error count
equals the sum of `file.jshint.results.length` over the failing files,
whatever the interleaving with successful files; successful files
contribute nothing. -/
theorem c4_lint_error_count_is_sum (s t : RunState) (files gfiles : List JshintFile) :
    (lint s files).totalLintErrors = specJshintErrorSum files
    ∧ (felint t gfiles).totalFelintErrors = specJshintErrorSum gfiles := by
  refine ⟨?_, ?_⟩ <;>
    simp [lint, felint, foldl_lintStep_total, foldl_felintStep_total, beforeEach, zeroState]

/-- C5: in non-watch mode a failing run terminates the process exactly once
with a non-zero status: when the lint category fails, the run's trace is
the error-count log and beep, then the emitted exit event, then the
deferred tick's log — after which `process exit 1` is performed, so the
following felint burst never runs and only one termination happens even
when that category would also fail. -/
theorem c5_single_termination (s : RunState) (files gfiles : List JshintFile)
    (h : ∃ f ∈ files, f.success = false) :
    runBursts "lint" s [fun t => lintTask t files, fun t => felintTask t gfiles]
      = (lint s files,
         [Ev.log (Msg.lintErrors (lint s files).totalLintErrors), Ev.beep, Ev.emitExit,
          Ev.log (Msg.failed "lint")],
         some 1) := by
  have hany : files.any (fun f => !f.success) = true := by
    obtain ⟨f, hf, hs⟩ := h
    exact List.any_eq_true.mpr ⟨f, hf, by simp [hs]⟩
  have hx : (lint s files).exitCode = 1 := by rw [lint_exitCode, if_pos hany]
  simp [runBursts, emitExit_mem_lintTask, hany, lintTask, lintOnEndEvents, hx,
    exitHandlerTick]

/-- C5 witness: a lint run over one file with 4 violations, followed by a
felint run that would also fail. -/
theorem c5_single_termination_witness :
    runBursts "lint" zeroState
        [fun t => lintTask t [⟨false, 4⟩], fun t => felintTask t [⟨false, 2⟩]]
      = (⟨1, 4, 0, 0⟩,
         [Ev.log (Msg.lintErrors 4), Ev.beep, Ev.emitExit, Ev.log (Msg.failed "lint")],
         some 1) :=
  c5_single_termination zeroState [⟨false, 4⟩] [⟨false, 2⟩]
    ⟨⟨false, 4⟩, by simp, rfl⟩

/-- C6: the watch task variants never emit the exit event, whatever the
tool outcomes — a failing watch run only logs and beeps and the process
survives. -/
theorem c6_watch_tasks_never_emit_exit (s : RunState) (files gfiles : List JshintFile)
    (mErr cErr tErr : Bool) :
    Ev.emitExit ∉ (lintWatchTask s files).2
    ∧ Ev.emitExit ∉ (felintWatchTask s gfiles).2
    ∧ Ev.emitExit ∉ (testCoverWatchTask s mErr cErr).2
    ∧ Ev.emitExit ∉ (testWatchTask s tErr).2 := by
  refine ⟨emitExit_not_mem_lintOnEndEvents _, emitExit_not_mem_felintOnEndEvents _, ?_, ?_⟩
  · cases mErr <;> cases cErr <;> simp [testCoverWatchTask, testErrorHandlerEvents]
  · cases tErr <;> simp [testWatchTask, testErrorHandlerEvents]

/-- C7 counterexample: the `test-watch` leaf task is not independent across
invocations — a first failing invocation leaves `exitCode = 1`, and a
second, passing invocation still carries `exitCode = 1` instead of the
cleared flag the claim requires. -/
theorem c7_test_watch_not_independent_cx :
    (testWatchTask zeroState true).1.exitCode = 1
    ∧ ((testWatchTask (testWatchTask zeroState true).1 false).1).exitCode = 1 :=
  ⟨rfl, rfl⟩

/-- C7 (amended): for the leaf tasks that call `beforeEach` (lessTest,
lint, lint-watch, felint, felint-watch, test-cover, test-cover-watch) a
second invocation in succession is fully independent of the first — its
outcome equals that of the same invocation from any other prior state; the
`test` and `test-watch` tasks do not reset, so a first failure persists
into the next invocation's state. -/
theorem c7_reset_tasks_rerun_independent (s t : RunState)
    (files gfiles : List JshintFile) (b1 b2 m1 c1 m2 c2 : Bool) :
    lintTask (lintTask s files).1 gfiles = lintTask t gfiles
    ∧ lintWatchTask (lintWatchTask s files).1 gfiles = lintWatchTask t gfiles
    ∧ felintTask (felintTask s files).1 gfiles = felintTask t gfiles
    ∧ felintWatchTask (felintWatchTask s files).1 gfiles = felintWatchTask t gfiles
    ∧ lessTestTask (lessTestTask s b1).1 b2 = lessTestTask t b2
    ∧ testCoverTask (testCoverTask s m1 c1).1 m2 c2 = testCoverTask t m2 c2
    ∧ testCoverWatchTask (testCoverWatchTask s m1 c1).1 m2 c2
        = testCoverWatchTask t m2 c2 :=
  ⟨rfl, rfl, rfl, rfl, rfl, rfl, rfl⟩

/-- C8: at natural process end the cleanup handler always appends the red
`gulp <seq> failed` log line, no matter whether the run failed, and the
process exit status is exactly the deferred read of the final `exitCode`
(0 for a passing run, non-zero for a failing one). -/
theorem c8_exit_cleanup (seq : String) (s sf : RunState) (evs : List Ev)
    (bs : List Burst) (h : runBursts seq s bs = (sf, evs, none)) :
    processRun seq s bs = (evs ++ [Ev.log (Msg.failed seq)], sf.exitCode)
    ∧ exitHandlerTick seq sf = ([Ev.log (Msg.failed seq)], sf.exitCode) := by
  refine ⟨?_, rfl⟩
  simp [processRun, h, exitHandlerTick]

/-- C8 witness: an empty passing run still gets the failed log line and
exits with status 0. -/
theorem c8_exit_cleanup_witness :
    processRun "lint" zeroState [] = ([Ev.log (Msg.failed "lint")], 0)
    ∧ exitHandlerTick "lint" zeroState = ([Ev.log (Msg.failed "lint")], 0) := by
  have h := c8_exit_cleanup "lint" zeroState zeroState [] [] rfl
  simpa using h

/-- C9: the options merge replaces arrays wholesale and deep-merges the
rest with user precedence: merging onto an array destination yields
exactly the user's value (never a concatenation), every field present on
both sides merges recursively with the user side winning at the leaves,
and in particular any field whose default is an array ends up being the
user's value exactly. -/
theorem c9_merge_array_replace :
    (∀ (xs : List JVal) (b : JVal), mergeVal (JVal.arr xs) b = b)
    ∧ (∀ (fa fb : List (String × JVal)) (k : String) (d u : JVal),
        lookupField k fa = some d → lookupField k fb = some u →
        lookupField k (mergeFields fa fb) = some (mergeVal d u))
    ∧ (∀ (fa fb : List (String × JVal)) (k : String) (xs : List JVal) (u : JVal),
        lookupField k fa = some (JVal.arr xs) → lookupField k fb = some u →
        lookupField k (mergeFields fa fb) = some u) := by
  refine ⟨fun xs b => by simp [mergeVal], lookupField_mergeFields, fun fa fb k xs u hd hu => ?_⟩
  rw [lookupField_mergeFields fa fb k _ u hd hu]
  simp [mergeVal]

/-- C9 witness: overriding the default `paths.lint` array replaces it
entirely by the user's array. -/
theorem c9_merge_array_replace_witness :
    lookupField "lint"
        (mergeFields defaultPathsFields
          [("lint", JVal.arr [JVal.str "src/**/*.js"])])
      = some (JVal.arr [JVal.str "src/**/*.js"]) :=
  c9_merge_array_replace.2.2 defaultPathsFields
    [("lint", JVal.arr [JVal.str "src/**/*.js"])] "lint" _ _ rfl rfl

/-- C10: the reset invoked at the start of the lessTest, lint, felint and
cover pipelines is the one shared `beforeEach`, which zeroes every
category's counter and the failure flag, not only the invoking task's own:
a reset run by `cover` erases lint errors already accumulated in the same
process, and a reset run by `lint` erases a recorded less failure. -/
theorem c10_reset_global (s : RunState) (files : List JshintFile) :
    lessTestStart s = zeroState
    ∧ lintStart s = zeroState
    ∧ felintStart s = zeroState
    ∧ coverStart s = zeroState
    ∧ coverStart (lint s files) = zeroState
    ∧ (coverStart (lint s files)).totalLintErrors = 0
    ∧ (coverStart (lint s files)).exitCode = 0
    ∧ (lintStart (lessTest s true)).lessError = 0 :=
  ⟨rfl, rfl, rfl, rfl, rfl, rfl, rfl, rfl⟩
